import Mathlib

/-!
Verification of the generation core of hackrf_beep.c: the waveform lookup-table
construction in main, the phase state (co, mo, so, sn, ms) and the streaming
callback tx_callback that fills each transfer buffer with I/Q byte pairs.

The tables are built with C doubles; we model them over the reals.  The C cast
from double to int8_t truncates toward zero for in-range values, modelled by
truncZ.  The callback is modelled as a pure function of the phase state and the
requested byte count, parameterised by the four lookup tables (as functions),
returning the new state, the list of bytes written, and the status code.
-/

namespace HackrfBeep

/-- Sample rate from the source: const uint32_t sr = 8000000. -/
def sr : ℕ := 8000000

/-- Depth of modulation from the source: const double dm = 4.0 / 3.0. -/
noncomputable def dm : ℝ := 4 / 3

/-- Full turn from the source: const double tau = 2.0 * M_PI. -/
noncomputable def tau : ℝ := 2 * Real.pi

/-- Truncation toward zero: the semantics of the C cast from double to int8_t
when the value is representable, as in mi[s][c] = ( int8_t ) ( 127.0 * ... ). -/
noncomputable def truncZ (x : ℝ) : ℤ := if 0 ≤ x then ⌊x⌋ else ⌈x⌉

/-- In-phase entry of a lookup table of cycle length N, as built by the two
precalculation loops in main: ( int8_t ) ( 127.0 * sin ( ca - dm * cos ( sa ) ) )
with ca = c * tau / 10.0 and sa = s * tau / N. -/
noncomputable def tableI (N s c : ℕ) : ℤ :=
  truncZ (127 * Real.sin ((c : ℝ) * tau / 10 - dm * Real.cos ((s : ℝ) * tau / (N : ℝ))))

/-- Quadrature entry of a lookup table of cycle length N, as built in main:
( int8_t ) ( 127.0 * cos ( ca - dm * cos ( sa ) ) ). -/
noncomputable def tableQ (N s c : ℕ) : ℤ :=
  truncZ (127 * Real.cos ((c : ℝ) * tau / 10 - dm * Real.cos ((s : ℝ) * tau / (N : ℝ))))

/-- The mark table mi[6666][10]. -/
noncomputable def mi (s c : ℕ) : ℤ := tableI 6666 s c

/-- The mark table mq[6666][10]. -/
noncomputable def mq (s c : ℕ) : ℤ := tableQ 6666 s c

/-- The space table si[3636][10]. -/
noncomputable def si (s c : ℕ) : ℤ := tableI 3636 s c

/-- The space table sq[3636][10]. -/
noncomputable def sq (s c : ℕ) : ℤ := tableQ 3636 s c

/-- The mutable globals of the source that tx_callback reads and writes:
carrier offset co, mark offset mo, space offset so, sample counter sn
(a nonnegative long) and the mark/space flag ms. -/
structure PhaseState where
  co : ℕ
  mo : ℕ
  so : ℕ
  sn : ℕ
  ms : Bool
  deriving DecidableEq

/-- The emission loop of tx_callback, recursing on the number of bytes still to
write (count - i in the source).  The source loop tests i < count and writes two
bytes per iteration, so with exactly one byte left it still writes a full I/Q
pair (the Q byte landing one past the requested count).  tI and tQ are the
active tables, tlen the active cycle length, ao the active modulation offset
and c the carrier offset; the result is the bytes written and the final
offsets (ao, c). -/
def emitLoop (tI tQ : ℕ → ℕ → ℤ) (tlen : ℕ) : ℕ → ℕ → ℕ → List ℤ × ℕ × ℕ
  | 0, ao, c => ([], ao, c)
  | 1, ao, c => ([tI ao c, tQ ao c], (ao + 1) % tlen, (c + 1) % 10)
  | r + 2, ao, c =>
    let rest := emitLoop tI tQ tlen r ((ao + 1) % tlen) ((c + 1) % 10)
    (tI ao c :: tQ ao c :: rest.1, rest.2)

/-- The streaming callback tx_callback, parameterised by the four lookup
tables.  It selects the active table by ms, runs the emission loop, recomputes
the inactive offset by proportional mapping, advances sn by the byte count,
flips ms (at most once) when sn reaches sr, and returns status 0. -/
def tx_callback (tmi tmq tsi tsq : ℕ → ℕ → ℤ) (count : ℕ) (st : PhaseState) :
    PhaseState × List ℤ × ℤ :=
  if st.ms then
    let r := emitLoop tmi tmq 6666 count st.mo st.co
    let mo2 := r.2.1
    let co2 := r.2.2
    let so2 := 3636 * mo2 / 6666
    let sn2 := st.sn + count
    if sr ≤ sn2 then
      (⟨co2, mo2, so2, sn2 - sr, !st.ms⟩, r.1, 0)
    else
      (⟨co2, mo2, so2, sn2, st.ms⟩, r.1, 0)
  else
    let r := emitLoop tsi tsq 3636 count st.so st.co
    let so2 := r.2.1
    let co2 := r.2.2
    let mo2 := 6666 * so2 / 3636
    let sn2 := st.sn + count
    if sr ≤ sn2 then
      (⟨co2, mo2, so2, sn2 - sr, !st.ms⟩, r.1, 0)
    else
      (⟨co2, mo2, so2, sn2, st.ms⟩, r.1, 0)

/-- The callback as wired up in the source, with the real trigonometric
tables. -/
noncomputable def tx_real (count : ℕ) (st : PhaseState) : PhaseState × List ℤ × ℤ :=
  tx_callback mi mq si sq count st

/-- The initial phase state set up in main: co = mo = so = 0, sn = 0,
ms = false. -/
def initState : PhaseState := ⟨0, 0, 0, 0, false⟩

/-- The emission loop writes 2 * ceil(r / 2) bytes for a request of r bytes. -/
theorem emitLoop_length (tI tQ : ℕ → ℕ → ℤ) (tlen : ℕ) :
    ∀ r ao c, (emitLoop tI tQ tlen r ao c).1.length = 2 * ((r + 1) / 2) := by
  intro r
  induction r using Nat.twoStepInduction with
  | zero => intro ao c; simp [emitLoop]
  | one => intro ao c; simp [emitLoop]
  | more r ih _ =>
    intro ao c
    have h := ih ((ao + 1) % tlen) ((c + 1) % 10)
    simp only [emitLoop, List.length_cons, h]
    omega

/-- Closed form for the final offsets of the emission loop: each of the
(r + 1) / 2 iterations advances both offsets by one, modulo their cycle
lengths. -/
theorem emitLoop_offsets (tI tQ : ℕ → ℕ → ℤ) (tlen : ℕ) (hl : 0 < tlen) :
    ∀ r ao c, ao < tlen → c < 10 →
      (emitLoop tI tQ tlen r ao c).2.1 = (ao + (r + 1) / 2) % tlen ∧
      (emitLoop tI tQ tlen r ao c).2.2 = (c + (r + 1) / 2) % 10 := by
  intro r
  induction r using Nat.twoStepInduction with
  | zero =>
    intro ao c hao hc
    simp [emitLoop, Nat.mod_eq_of_lt hao, Nat.mod_eq_of_lt hc]
  | one =>
    intro ao c hao hc
    simp [emitLoop]
  | more r ih _ =>
    intro ao c hao hc
    have h1 : (ao + 1) % tlen < tlen := Nat.mod_lt _ hl
    have h2 : (c + 1) % 10 < 10 := Nat.mod_lt _ (by norm_num)
    obtain ⟨e1, e2⟩ := ih ((ao + 1) % tlen) ((c + 1) % 10) h1 h2
    have key : ∀ a n k : ℕ, (a % n + k) % n = (a + k) % n := by
      intro a n k
      conv_rhs => rw [Nat.add_mod]
      rw [Nat.add_mod (a % n) k, Nat.mod_mod_of_dvd]
      exact dvd_refl n
    constructor
    · show (emitLoop tI tQ tlen r ((ao + 1) % tlen) ((c + 1) % 10)).2.1 = _
      rw [e1, key]
      have : ao + 1 + (r + 1) / 2 = ao + (r + 2 + 1) / 2 := by omega
      rw [this]
    · show (emitLoop tI tQ tlen r ((ao + 1) % tlen) ((c + 1) % 10)).2.2 = _
      rw [e2, key]
      have : c + 1 + (r + 1) / 2 = c + (r + 2 + 1) / 2 := by omega
      rw [this]

/-- The flag after a call: ms is flipped exactly when the byte-advanced counter
st.sn + count reaches sr, independently of the emitted samples. -/
theorem tx_callback_ms (tmi tmq tsi tsq : ℕ → ℕ → ℤ) (count : ℕ) (st : PhaseState) :
    (tx_callback tmi tmq tsi tsq count st).1.ms =
      if sr ≤ st.sn + count then !st.ms else st.ms := by
  cases hms : st.ms <;> by_cases hsn : sr ≤ st.sn + count <;>
    simp [tx_callback, hms, hsn]

/-- The counter after a call: sn advances by the byte count and has sr
subtracted exactly once when it reached sr. -/
theorem tx_callback_sn (tmi tmq tsi tsq : ℕ → ℕ → ℤ) (count : ℕ) (st : PhaseState) :
    (tx_callback tmi tmq tsi tsq count st).1.sn =
      if sr ≤ st.sn + count then st.sn + count - sr else st.sn + count := by
  cases hms : st.ms <;> by_cases hsn : sr ≤ st.sn + count <;>
    simp [tx_callback, hms, hsn]

/-- A zero-valued pair of tables, used to instantiate closed statements. -/
def zeroTbl : ℕ → ℕ → ℤ := fun _ _ => 0

/-- C1: the source comment reads "Every second, change", and the spec states
that the counter advances by count / 2 complex samples so that ms flips only
once sr complex samples (one second) have been emitted.  The code instead
advances sn by count (bytes): from the initial state, a single call for
8000000 bytes emits only 4000000 complex samples (half a second), yet ms has
already flipped and the counter has wrapped to 0. -/
theorem c1_code_flips_after_half_second (tmi tmq tsi tsq : ℕ → ℕ → ℤ) :
    (tx_callback tmi tmq tsi tsq 8000000 initState).1.ms = true ∧
    (tx_callback tmi tmq tsi tsq 8000000 initState).1.sn = 0 := by
  constructor
  · rw [tx_callback_ms]; simp [initState, sr]
  · rw [tx_callback_sn]; simp [initState, sr]

/-- C2: after every call, the inactive offset is the proportional image of the
final active offset: when mark is active, so = 3636 * mo / 6666; when space is
active, mo = 6666 * so / 3636 (integer floor division), read off the state the
call returns. -/
theorem c2_inactive_offset_proportional (tmi tmq tsi tsq : ℕ → ℕ → ℤ)
    (count : ℕ) (st : PhaseState) :
    (st.ms = true →
      (tx_callback tmi tmq tsi tsq count st).1.so =
        3636 * (tx_callback tmi tmq tsi tsq count st).1.mo / 6666) ∧
    (st.ms = false →
      (tx_callback tmi tmq tsi tsq count st).1.mo =
        6666 * (tx_callback tmi tmq tsi tsq count st).1.so / 3636) := by
  constructor <;> intro hms <;> by_cases hsn : sr ≤ st.sn + count <;>
    simp [tx_callback, hms, hsn]

/-- C2 witness: the proportional-mapping relation instantiated at concrete
states, once with mark active and once with space active. -/
theorem c2_inactive_offset_proportional_witness :
    ((tx_callback zeroTbl zeroTbl zeroTbl zeroTbl 4 ⟨0, 0, 0, 0, true⟩).1.so =
      3636 * (tx_callback zeroTbl zeroTbl zeroTbl zeroTbl 4 ⟨0, 0, 0, 0, true⟩).1.mo / 6666) ∧
    ((tx_callback zeroTbl zeroTbl zeroTbl zeroTbl 4 ⟨0, 0, 0, 0, false⟩).1.mo =
      6666 * (tx_callback zeroTbl zeroTbl zeroTbl zeroTbl 4 ⟨0, 0, 0, 0, false⟩).1.so / 3636) :=
  ⟨(c2_inactive_offset_proportional zeroTbl zeroTbl zeroTbl zeroTbl 4 ⟨0, 0, 0, 0, true⟩).1 rfl,
   (c2_inactive_offset_proportional zeroTbl zeroTbl zeroTbl zeroTbl 4 ⟨0, 0, 0, 0, false⟩).2 rfl⟩

/-- Fields of the state returned by a call with mark active, in terms of the
emission loop. -/
theorem tx_callback_mark_fields (tmi tmq tsi tsq : ℕ → ℕ → ℤ)
    (count : ℕ) (st : PhaseState) (h : st.ms = true) :
    (tx_callback tmi tmq tsi tsq count st).1.mo =
      (emitLoop tmi tmq 6666 count st.mo st.co).2.1 ∧
    (tx_callback tmi tmq tsi tsq count st).1.co =
      (emitLoop tmi tmq 6666 count st.mo st.co).2.2 ∧
    (tx_callback tmi tmq tsi tsq count st).1.so =
      3636 * (emitLoop tmi tmq 6666 count st.mo st.co).2.1 / 6666 := by
  by_cases hsn : sr ≤ st.sn + count <;> simp [tx_callback, h, hsn]

/-- Fields of the state returned by a call with space active, in terms of the
emission loop. -/
theorem tx_callback_space_fields (tmi tmq tsi tsq : ℕ → ℕ → ℤ)
    (count : ℕ) (st : PhaseState) (h : st.ms = false) :
    (tx_callback tmi tmq tsi tsq count st).1.so =
      (emitLoop tsi tsq 3636 count st.so st.co).2.1 ∧
    (tx_callback tmi tmq tsi tsq count st).1.co =
      (emitLoop tsi tsq 3636 count st.so st.co).2.2 ∧
    (tx_callback tmi tmq tsi tsq count st).1.mo =
      6666 * (emitLoop tsi tsq 3636 count st.so st.co).2.1 / 3636 := by
  by_cases hsn : sr ≤ st.sn + count <;> simp [tx_callback, h, hsn]

/-- The buffer contents produced by a call, in terms of the emission loop. -/
theorem tx_callback_buffer (tmi tmq tsi tsq : ℕ → ℕ → ℤ)
    (count : ℕ) (st : PhaseState) :
    (tx_callback tmi tmq tsi tsq count st).2.1 =
      if st.ms then (emitLoop tmi tmq 6666 count st.mo st.co).1
      else (emitLoop tsi tsq 3636 count st.so st.co).1 := by
  cases hms : st.ms <;> by_cases hsn : sr ≤ st.sn + count <;>
    simp [tx_callback, hms, hsn]

/-- A table holding 1 in every cell, to distinguish I bytes in counterexamples. -/
def oneTbl : ℕ → ℕ → ℤ := fun _ _ => 1

/-- A table holding 2 in every cell, to distinguish Q bytes in counterexamples. -/
def twoTbl : ℕ → ℕ → ℤ := fun _ _ => 2

/-- C4 counterexample: a call requesting 1 byte (odd) with mark active writes
two bytes, the full final I/Q pair, not exactly 1 byte ending in a lone I
sample: the source loop tests i < count after writing two bytes, so the Q byte
lands at index count, one past the request. -/
theorem c4_odd_length_counterexample :
    (tx_callback oneTbl twoTbl zeroTbl zeroTbl 1 ⟨0, 0, 0, 0, true⟩).2.1 = [1, 2] ∧
    ¬ (tx_callback oneTbl twoTbl zeroTbl zeroTbl 1 ⟨0, 0, 0, 0, true⟩).2.1.length = 1 := by
  constructor
  · rfl
  · decide

/-- C4 amended: for every odd byte count, the callback writes count + 1 bytes:
the final pair is emitted in full, its Q byte one past the requested length. -/
theorem c4_odd_length_writes_one_extra_byte (tmi tmq tsi tsq : ℕ → ℕ → ℤ)
    (count : ℕ) (st : PhaseState) (h : count % 2 = 1) :
    (tx_callback tmi tmq tsi tsq count st).2.1.length = count + 1 := by
  rw [tx_callback_buffer]
  cases st.ms <;> simp [emitLoop_length] <;> omega

/-- C4 witness: a call for 3 bytes writes 4. -/
theorem c4_odd_length_writes_one_extra_byte_witness :
    (3 : ℕ) % 2 = 1 ∧
    (tx_callback zeroTbl zeroTbl zeroTbl zeroTbl 3 initState).2.1.length = 3 + 1 :=
  ⟨by norm_num,
   c4_odd_length_writes_one_extra_byte zeroTbl zeroTbl zeroTbl zeroTbl 3 initState
     (by norm_num)⟩

/-- C5: the offset ranges co < 10, mo < 6666, so < 3636 are an invariant of the
callback: if they hold before a call of even length they hold after it, so
every table access during emission is in range. -/
theorem c5_offset_invariant (tmi tmq tsi tsq : ℕ → ℕ → ℤ)
    (count : ℕ) (st : PhaseState) (_heven : count % 2 = 0)
    (hco : st.co < 10) (hmo : st.mo < 6666) (hso : st.so < 3636) :
    (tx_callback tmi tmq tsi tsq count st).1.co < 10 ∧
    (tx_callback tmi tmq tsi tsq count st).1.mo < 6666 ∧
    (tx_callback tmi tmq tsi tsq count st).1.so < 3636 := by
  cases hms : st.ms
  · obtain ⟨eso, eco, emo⟩ :=
      tx_callback_space_fields tmi tmq tsi tsq count st hms
    obtain ⟨o1, o2⟩ :=
      emitLoop_offsets tsi tsq 3636 (by norm_num) count st.so st.co hso hco
    rw [eso, eco, emo, o1, o2]
    have h1 : (st.so + (count + 1) / 2) % 3636 < 3636 := Nat.mod_lt _ (by norm_num)
    have h2 : (st.co + (count + 1) / 2) % 10 < 10 := Nat.mod_lt _ (by norm_num)
    refine ⟨h2, ?_, h1⟩
    omega
  · obtain ⟨emo, eco, eso⟩ :=
      tx_callback_mark_fields tmi tmq tsi tsq count st hms
    obtain ⟨o1, o2⟩ :=
      emitLoop_offsets tmi tmq 6666 (by norm_num) count st.mo st.co hmo hco
    rw [eso, eco, emo, o1, o2]
    have h1 : (st.mo + (count + 1) / 2) % 6666 < 6666 := Nat.mod_lt _ (by norm_num)
    have h2 : (st.co + (count + 1) / 2) % 10 < 10 := Nat.mod_lt _ (by norm_num)
    refine ⟨h2, h1, ?_⟩
    omega

/-- C5 witness: the invariant instantiated at the initial state with a call of
8 bytes. -/
theorem c5_offset_invariant_witness :
    (8 : ℕ) % 2 = 0 ∧ initState.co < 10 ∧ initState.mo < 6666 ∧ initState.so < 3636 ∧
    ((tx_callback zeroTbl zeroTbl zeroTbl zeroTbl 8 initState).1.co < 10 ∧
      (tx_callback zeroTbl zeroTbl zeroTbl zeroTbl 8 initState).1.mo < 6666 ∧
      (tx_callback zeroTbl zeroTbl zeroTbl zeroTbl 8 initState).1.so < 3636) :=
  ⟨by norm_num, by norm_num [initState], by norm_num [initState], by norm_num [initState],
   c5_offset_invariant zeroTbl zeroTbl zeroTbl zeroTbl 8 initState
     (by norm_num) (by norm_num [initState]) (by norm_num [initState])
     (by norm_num [initState])⟩

/-- C8: for a fixed tone the sequence is periodic with period N * 10 complex
samples: a call of 2 * 6666 * 10 = 133320 bytes with mark active returns the
carrier and mark offsets to their starting values, and a call of
2 * 3636 * 10 = 72720 bytes with space active returns the carrier and space
offsets to their starting values. -/
theorem c8_periodicity (tmi tmq tsi tsq : ℕ → ℕ → ℤ) (st : PhaseState) :
    (st.ms = true → st.co < 10 → st.mo < 6666 →
      (tx_callback tmi tmq tsi tsq 133320 st).1.co = st.co ∧
      (tx_callback tmi tmq tsi tsq 133320 st).1.mo = st.mo) ∧
    (st.ms = false → st.co < 10 → st.so < 3636 →
      (tx_callback tmi tmq tsi tsq 72720 st).1.co = st.co ∧
      (tx_callback tmi tmq tsi tsq 72720 st).1.so = st.so) := by
  constructor
  · intro hms hco hmo
    obtain ⟨emo, eco, _⟩ :=
      tx_callback_mark_fields tmi tmq tsi tsq 133320 st hms
    obtain ⟨o1, o2⟩ :=
      emitLoop_offsets tmi tmq 6666 (by norm_num) 133320 st.mo st.co hmo hco
    rw [eco, emo, o1, o2]
    constructor <;> omega
  · intro hms hco hso
    obtain ⟨eso, eco, _⟩ :=
      tx_callback_space_fields tmi tmq tsi tsq 72720 st hms
    obtain ⟨o1, o2⟩ :=
      emitLoop_offsets tsi tsq 3636 (by norm_num) 72720 st.so st.co hso hco
    rw [eco, eso, o1, o2]
    constructor <;> omega

/-- C8 witness: periodicity instantiated at concrete states with nonzero
offsets, once per tone. -/
theorem c8_periodicity_witness :
    ((tx_callback zeroTbl zeroTbl zeroTbl zeroTbl 133320 ⟨3, 5, 0, 0, true⟩).1.co = 3 ∧
      (tx_callback zeroTbl zeroTbl zeroTbl zeroTbl 133320 ⟨3, 5, 0, 0, true⟩).1.mo = 5) ∧
    ((tx_callback zeroTbl zeroTbl zeroTbl zeroTbl 72720 ⟨4, 0, 7, 0, false⟩).1.co = 4 ∧
      (tx_callback zeroTbl zeroTbl zeroTbl zeroTbl 72720 ⟨4, 0, 7, 0, false⟩).1.so = 7) :=
  ⟨(c8_periodicity zeroTbl zeroTbl zeroTbl zeroTbl ⟨3, 5, 0, 0, true⟩).1 rfl
      (by norm_num) (by norm_num),
   (c8_periodicity zeroTbl zeroTbl zeroTbl zeroTbl ⟨4, 0, 7, 0, false⟩).2 rfl
      (by norm_num) (by norm_num)⟩

/-- C7: the callback returns status 0 on every invocation, for every table,
byte count and phase state; it has no error path. -/
theorem c7_returns_zero (tmi tmq tsi tsq : ℕ → ℕ → ℤ) (count : ℕ) (st : PhaseState) :
    (tx_callback tmi tmq tsi tsq count st).2.2 = 0 := by
  cases hms : st.ms <;> by_cases hsn : sr ≤ st.sn + count <;>
    simp [tx_callback, hms, hsn]

/-- C9: the generator is deterministic: from equal phase-state snapshots and
equal requested counts, two invocations produce identical buffers, states and
statuses; likewise two constructions of a table from the same constants agree
entrywise.  In this functional embedding the source has no hidden inputs, so
determinism is a congruence fact. -/
theorem c9_deterministic (tmi tmq tsi tsq : ℕ → ℕ → ℤ)
    (count1 count2 : ℕ) (st1 st2 : PhaseState) (N s c : ℕ)
    (hc : count1 = count2) (hst : st1 = st2) :
    tx_callback tmi tmq tsi tsq count1 st1 = tx_callback tmi tmq tsi tsq count2 st2 ∧
    tableI N s c = tableI N s c ∧ tableQ N s c = tableQ N s c := by
  subst hc; subst hst; exact ⟨rfl, rfl, rfl⟩

/-- C9 witness: determinism instantiated at a concrete snapshot. -/
theorem c9_deterministic_witness :
    tx_callback zeroTbl zeroTbl zeroTbl zeroTbl 6 initState =
      tx_callback zeroTbl zeroTbl zeroTbl zeroTbl 6 initState ∧
    tableI 6666 0 0 = tableI 6666 0 0 ∧ tableQ 6666 0 0 = tableQ 6666 0 0 :=
  c9_deterministic zeroTbl zeroTbl zeroTbl zeroTbl 6 6 initState initState 6666 0 0 rfl rfl

/-- C10: the flip logic is an if, not a loop: however large the byte count, ms
flips at most once per call.  When the advanced counter reaches two times sr,
there is still exactly one flip and the returned counter remains at least sr. -/
theorem c10_at_most_one_flip (tmi tmq tsi tsq : ℕ → ℕ → ℤ)
    (count : ℕ) (st : PhaseState) (h : 2 * sr ≤ st.sn + count) :
    (tx_callback tmi tmq tsi tsq count st).1.ms = !st.ms ∧
    sr ≤ (tx_callback tmi tmq tsi tsq count st).1.sn := by
  have hsn : sr ≤ st.sn + count := by
    have : 0 < sr := by norm_num [sr]
    omega
  constructor
  · rw [tx_callback_ms, if_pos hsn]
  · rw [tx_callback_sn, if_pos hsn]
    omega

/-- C10 witness: a call of 16000000 bytes from the initial state flips ms once
and leaves the counter at sr. -/
theorem c10_at_most_one_flip_witness :
    2 * sr ≤ initState.sn + 16000000 ∧
    ((tx_callback zeroTbl zeroTbl zeroTbl zeroTbl 16000000 initState).1.ms = !initState.ms ∧
      sr ≤ (tx_callback zeroTbl zeroTbl zeroTbl zeroTbl 16000000 initState).1.sn) :=
  ⟨by norm_num [sr, initState],
   c10_at_most_one_flip zeroTbl zeroTbl zeroTbl zeroTbl 16000000 initState
     (by norm_num [sr, initState])⟩

/-- Truncation toward zero of a real bounded by 127 in absolute value stays
bounded by 127. -/
theorem abs_truncZ_le_127 {x : ℝ} (h : |x| ≤ 127) : |truncZ x| ≤ 127 := by
  obtain ⟨hl, hu⟩ := abs_le.mp h
  unfold truncZ
  split_ifs with h0
  · refine abs_le.mpr ⟨?_, ?_⟩
    · have h1 : (0 : ℤ) ≤ ⌊x⌋ := Int.floor_nonneg.mpr h0
      omega
    · have h1 : (⌊x⌋ : ℝ) ≤ 127 := le_trans (Int.floor_le x) hu
      exact_mod_cast h1
  · refine abs_le.mpr ⟨?_, ?_⟩
    · have h1 : (-127 : ℝ) ≤ (⌈x⌉ : ℝ) := le_trans hl (Int.le_ceil x)
      exact_mod_cast h1
    · have h1 : ⌈x⌉ ≤ (0 : ℤ) := Int.ceil_le.mpr (by push_cast; linarith)
      omega

/-- C6: every table entry is bounded by 127 in absolute value: the real values
127 * sin and 127 * cos lie in the interval from -127 to 127 and truncation
keeps them there, so the conversion into the signed 8-bit cell never
overflows. -/
theorem c6_table_entries_bounded (N s c : ℕ) :
    |tableI N s c| ≤ 127 ∧ |tableQ N s c| ≤ 127 := by
  constructor
  · apply abs_truncZ_le_127
    rw [abs_mul]
    have h := Real.abs_sin_le_one
      ((c : ℝ) * tau / 10 - dm * Real.cos ((s : ℝ) * tau / (N : ℝ)))
    rw [abs_of_nonneg (by norm_num : (0 : ℝ) ≤ 127)]
    nlinarith
  · apply abs_truncZ_le_127
    rw [abs_mul]
    have h := Real.abs_cos_le_one
      ((c : ℝ) * tau / 10 - dm * Real.cos ((s : ℝ) * tau / (N : ℝ)))
    rw [abs_of_nonneg (by norm_num : (0 : ℝ) ≤ 127)]
    nlinarith

/-- Numerical bounds for the angle at table row 0, carrier step 2: with
theta = 4/3 - 2 pi / 5 we have 9.5 < 127 * sin theta < 10, so truncation toward
zero and rounding to nearest disagree at this cell. -/
theorem sin_theta_bounds :
    9.5 < 127 * Real.sin (4 / 3 - 2 * Real.pi / 5) ∧
    127 * Real.sin (4 / 3 - 2 * Real.pi / 5) < 10 := by
  have hpl : (3.141592 : ℝ) < Real.pi := Real.pi_gt_d6
  have hpu : Real.pi < 3.141593 := Real.pi_lt_d6
  have hθl : (0.0766961 : ℝ) < 4 / 3 - 2 * Real.pi / 5 := by linarith
  have hθu : 4 / 3 - 2 * Real.pi / 5 < 0.0766966 := by linarith
  have hpos : (0 : ℝ) < 4 / 3 - 2 * Real.pi / 5 := by linarith
  have hle1 : 4 / 3 - 2 * Real.pi / 5 ≤ 1 := by linarith
  have hs1 : Real.sin (4 / 3 - 2 * Real.pi / 5) < 4 / 3 - 2 * Real.pi / 5 :=
    Real.sin_lt hpos
  have hs2 : 4 / 3 - 2 * Real.pi / 5 - (4 / 3 - 2 * Real.pi / 5) ^ 3 / 4 <
      Real.sin (4 / 3 - 2 * Real.pi / 5) := Real.sin_gt_sub_cube hpos hle1
  have hcube : (4 / 3 - 2 * Real.pi / 5) ^ 3 < 0.0766966 ^ 3 :=
    pow_lt_pow_left₀ hθu (le_of_lt hpos) (by norm_num)
  constructor
  · nlinarith
  · nlinarith

/-- C3 counterexample: at space-table row 0, carrier step 2, the phase is
2 pi / 5 - 4/3 and 127 * sin of it is strictly between -10 and -9.5; the C
cast stores -9 (truncation toward zero) while round-to-nearest gives -10, so
the stored sample is not round(127 * sin(phase)). -/
theorem c3_cast_is_not_round_counterexample :
    tableI 3636 0 2 = -9 ∧
    round (127 * Real.sin (2 * Real.pi * 2 / 10 -
      (4 / 3) * Real.cos (2 * Real.pi * 0 / 3636))) = (-10 : ℤ) := by
  obtain ⟨hb1, hb2⟩ := sin_theta_bounds
  constructor
  · have hang : ((2 : ℕ) : ℝ) * tau / 10 -
        dm * Real.cos (((0 : ℕ) : ℝ) * tau / ((3636 : ℕ) : ℝ)) =
        -(4 / 3 - 2 * Real.pi / 5) := by
      push_cast
      rw [show (0 : ℝ) * tau / 3636 = 0 by ring, Real.cos_zero]
      simp only [tau, dm]
      ring
    rw [tableI, hang, Real.sin_neg]
    have hval : 127 * -Real.sin (4 / 3 - 2 * Real.pi / 5) =
        -(127 * Real.sin (4 / 3 - 2 * Real.pi / 5)) := by ring
    rw [truncZ, hval, if_neg (by linarith)]
    rw [Int.ceil_eq_iff]
    constructor
    · push_cast
      linarith
    · push_cast
      linarith
  · have hang : 2 * Real.pi * 2 / 10 - (4 / 3) * Real.cos (2 * Real.pi * 0 / 3636) =
        -(4 / 3 - 2 * Real.pi / 5) := by
      rw [show 2 * Real.pi * 0 / 3636 = (0 : ℝ) by ring, Real.cos_zero]
      ring
    rw [hang, Real.sin_neg]
    have hval : 127 * -Real.sin (4 / 3 - 2 * Real.pi / 5) =
        -(127 * Real.sin (4 / 3 - 2 * Real.pi / 5)) := by ring
    rw [hval, round_eq, Int.floor_eq_iff]
    constructor
    · push_cast
      linarith
    · push_cast
      linarith

/-- C3 amended: the stored samples are the truncation toward zero (the C cast)
of 127 * sin(phase) and 127 * cos(phase), with
phase = 2 pi c / 10 - (4/3) cos(2 pi s / N), for every row s and carrier
step c; the conversion is not round-to-nearest. -/
theorem c3_table_entries_are_truncated (N s c : ℕ) :
    tableI N s c = truncZ (127 * Real.sin (2 * Real.pi * (c : ℝ) / 10 -
      (4 / 3) * Real.cos (2 * Real.pi * (s : ℝ) / (N : ℝ)))) ∧
    tableQ N s c = truncZ (127 * Real.cos (2 * Real.pi * (c : ℝ) / 10 -
      (4 / 3) * Real.cos (2 * Real.pi * (s : ℝ) / (N : ℝ)))) := by
  have hs : (s : ℝ) * tau / (N : ℝ) = 2 * Real.pi * (s : ℝ) / (N : ℝ) := by
    simp only [tau]
    ring
  have hc : (c : ℝ) * tau / 10 - dm * Real.cos (2 * Real.pi * (s : ℝ) / (N : ℝ)) =
      2 * Real.pi * (c : ℝ) / 10 -
        (4 / 3) * Real.cos (2 * Real.pi * (s : ℝ) / (N : ℝ)) := by
    simp only [tau, dm]
    ring
  constructor
  · rw [tableI, hs, hc]
  · rw [tableQ, hs, hc]

end HackrfBeep
